import Mathlib

/-!
Verification of the inventory-management HTTP service in `src/main.js`
(file-backed variant: a JSON array of item records in `db.json`, photo
blobs as files in a cache directory).

The embedding models:
  * an item record as stored in `db.json` (`Item`);
  * the JSON payload of a response that carries an item (`ItemResponse`);
  * the observable system state (`SysState`): the database file content
    (`none` when `db.json` is absent) and the set of blob filenames in
    the cache directory;
  * each HTTP handler as a function from state and request parts to a
    `Response`, a successor state, and a trace of file-system effects
    (`FsOp`), in the order the handler performs them;
  * `parseIntBase10`, the behaviour of JavaScript `parseInt(s, 10)`:
    leading whitespace is skipped, an optional sign is read, and the
    maximal leading run of decimal digits is converted; the result is
    `none` exactly when `parseInt` returns `NaN`.

Handlers are modelled on their non-exceptional paths: reads and writes
of `db.json` succeed (a missing file is `SysState.db = none`), and an
`unlink` removes the named file from the cache directory.
-/

/-- One inventory record as stored in the `db.json` array. -/
structure Item where
  id : Int
  name : String
  description : String
  photo : Option String
deriving DecidableEq, Repr

/-- The item-shaped part of a JSON response body.  `photo` is the raw
stored filename when the payload carries one (`null` and an absent key
are both modelled as `none`); `photo_url` is the synthesized access
path when the payload carries one. -/
structure ItemResponse where
  id : Int
  name : String
  description : String
  photo : Option String
  photo_url : Option String
deriving DecidableEq, Repr

/-- Observable system state: content of `db.json` (`none` when the file
does not exist) and the filenames present in the cache directory. -/
structure SysState where
  db : Option (List Item)
  files : List String
deriving DecidableEq, Repr

/-- A file-system effect performed by a handler, in program order. -/
inductive FsOp where
  | writeDB (items : List Item)
  | unlink (name : String)
deriving DecidableEq, Repr

/-- The response a handler sends. -/
inductive Response where
  | ok (body : ItemResponse)
  | okList (body : List ItemResponse)
  | okText
  | okFile (name : String)
  | created (body : ItemResponse)
  | badRequest
  | notFound
deriving DecidableEq, Repr

/-- The characters JavaScript `parseInt` skips before reading digits
(ECMA-262 StrWhiteSpaceChar = WhiteSpace plus LineTerminator): tab,
LF, VT, FF, CR, space, NBSP, ZWNBSP, the line and paragraph
separators, and every Unicode space-separator (Zs) character. -/
def jsSpace (c : Char) : Bool :=
  c = ' ' || c = '\t' || c = '\n' || c = '\r' || c = '\x0b' || c = '\x0c' ||
  c.toNat = 0xA0 || c.toNat = 0xFEFF || c.toNat = 0x2028 || c.toNat = 0x2029 ||
  c.toNat = 0x1680 || (0x2000 ≤ c.toNat && c.toNat ≤ 0x200A) ||
  c.toNat = 0x202F || c.toNat = 0x205F || c.toNat = 0x3000

/-- Maximal leading run of decimal digits. -/
def leadingDigits (cs : List Char) : List Char :=
  cs.takeWhile Char.isDigit

/-- Numeric value of a run of decimal digits. -/
def natOfDigits (cs : List Char) : Nat :=
  cs.foldl (fun a c => a * 10 + (c.toNat - 48)) 0

/-- JavaScript `parseInt(s, 10)`: skip leading whitespace, read an
optional sign, convert the maximal leading digit run; `none` models a
`NaN` result (no digits found). -/
def parseIntBase10 (s : String) : Option Int :=
  let cs := s.data.dropWhile jsSpace
  match cs with
  | '-' :: rest =>
      let ds := leadingDigits rest
      if ds.isEmpty then none else some (-(natOfDigits ds : Int))
  | '+' :: rest =>
      let ds := leadingDigits rest
      if ds.isEmpty then none else some ((natOfDigits ds : Int))
  | _ =>
      let ds := leadingDigits cs
      if ds.isEmpty then none else some ((natOfDigits ds : Int))

/-- A string that is literally a base-10 integer numeral: an optional
sign followed by a nonempty run of decimal digits and nothing else.
Follows the spec's words; used to compare the spec's notion of
"non-numeric id" with what the code actually accepts. -/
def isBase10Numeral (s : String) : Bool :=
  match s.data with
  | '-' :: rest => !rest.isEmpty && rest.all Char.isDigit
  | '+' :: rest => !rest.isEmpty && rest.all Char.isDigit
  | cs => !cs.isEmpty && cs.all Char.isDigit

/-- `unlink` on the cache directory: the named file is gone afterwards
(a directory holds at most one entry per name). -/
def unlinkFile (fs : List String) (n : String) : List String :=
  fs.filter (fun m => m ≠ n)

/-- The raw serialization of an item, as `POST /register` sends it:
the stored `photo` field itself is part of the payload. -/
def rawItem (it : Item) : ItemResponse :=
  ⟨it.id, it.name, it.description, it.photo, none⟩

/-- Synthesized photo access path for an item id. -/
def photoPath (i : Int) : String :=
  "/inventory/" ++ toString i ++ "/photo"

/-- The projected serialization used by `GET /inventory`,
`GET /inventory/:id` and `PUT /inventory/:id`: the `photo` key is
dropped and, when a photo is set, a `photo_url` is added. -/
def projectItem (it : Item) : ItemResponse :=
  match it.photo with
  | some _ => ⟨it.id, it.name, it.description, none, some (photoPath it.id)⟩
  | none => ⟨it.id, it.name, it.description, none, none⟩

/-- The projection used by `GET /search`: the `photo` key is always
dropped; `photo_url` is added only when the query said
`includePhoto=on` and a photo is set. -/
def projectSearch (includePhoto? : Option String) (it : Item) : ItemResponse :=
  if includePhoto? = some "on" then projectItem it
  else ⟨it.id, it.name, it.description, none, none⟩

/-- `name !== undefined` / `description !== undefined` field merge of
`PUT /inventory/:id`: a supplied value replaces the current one (an
empty string is a supplied value), an omitted field is kept. -/
def applyUpdate (it : Item) (name? descr? : Option String) : Item :=
  { it with
    name := name?.getD it.name
    description := descr?.getD it.description }

/-- `findIndex` followed by in-place mutation: rewrite the first item
whose id matches, leave everything else in place. -/
def updateFirst (l : List Item) (rid : Int) (f : Item → Item) : List Item :=
  match l with
  | [] => []
  | x :: xs => if x.id = rid then f x :: xs else x :: updateFirst xs rid f

/-- `findIndex` followed by `splice(i, 1)`: drop the first item whose
id matches, leave everything else in place. -/
def removeFirst (l : List Item) (rid : Int) : List Item :=
  match l with
  | [] => []
  | x :: xs => if x.id = rid then xs else x :: removeFirst xs rid

/-- `inventory.reduce((max, item) => Math.max(max, item.id), 0)`. -/
def maxIdFold (l : List Item) : Int :=
  l.foldl (fun m it => max m it.id) 0

/-- `POST /register`.  `name?`/`descr?` are the form fields
(`none` = absent); `file?` is the filename multer staged into the cache
directory before the handler body ran (`none` = no upload).  An absent
or empty `inventory_name` is rejected; a missing `db.json` is treated
as the empty collection; the new collection is written back and the
new record is sent raw. -/
def register (st : SysState) (name? descr? file? : Option String) :
    Response × SysState × List FsOp :=
  match name? with
  | none => (.badRequest, st, [])
  | some n =>
    if n = "" then (.badRequest, st, [])
    else
      let inventory := st.db.getD []
      let newId := maxIdFold inventory + 1
      let newItem : Item := ⟨newId, n, descr?.getD "", file?⟩
      let inv' := inventory ++ [newItem]
      (.created (rawItem newItem), ⟨some inv', st.files⟩, [.writeDB inv'])

/-- `GET /inventory/:id`. -/
def getItem (st : SysState) (idStr : String) :
    Response × SysState × List FsOp :=
  match parseIntBase10 idStr with
  | none => (.badRequest, st, [])
  | some rid =>
    match st.db with
    | none => (.notFound, st, [])
    | some inventory =>
      match inventory.find? (fun i => i.id = rid) with
      | none => (.notFound, st, [])
      | some it => (.ok (projectItem it), st, [])

/-- `GET /inventory`. -/
def listInventory (st : SysState) : Response × SysState × List FsOp :=
  match st.db with
  | none => (.notFound, st, [])
  | some inventory => (.okList (inventory.map projectItem), st, [])

/-- `PUT /inventory/:id`. -/
def updateItem (st : SysState) (idStr : String) (name? descr? : Option String) :
    Response × SysState × List FsOp :=
  match parseIntBase10 idStr with
  | none => (.badRequest, st, [])
  | some rid =>
    match st.db with
    | none => (.notFound, st, [])
    | some inventory =>
      match inventory.find? (fun i => i.id = rid) with
      | none => (.notFound, st, [])
      | some old =>
        let inv' := updateFirst inventory rid (fun i => applyUpdate i name? descr?)
        (.ok (projectItem (applyUpdate old name? descr?)),
         ⟨some inv', st.files⟩, [.writeDB inv'])

/-- `PUT /inventory/:id/photo`.  `file?` is the filename multer staged
into the cache directory before the handler body ran.  On a missing
`db.json` the handler returns early without touching the staged file;
on an unknown id it unlinks the staged file; on a known id it unlinks
the previous photo (if any) BEFORE writing the new collection. -/
def updatePhoto (st : SysState) (idStr : String) (file? : Option String) :
    Response × SysState × List FsOp :=
  match parseIntBase10 idStr with
  | none => (.badRequest, st, [])
  | some rid =>
    match file? with
    | none => (.badRequest, st, [])
    | some newFile =>
      match st.db with
      | none => (.notFound, st, [])
      | some inventory =>
        match inventory.find? (fun i => i.id = rid) with
        | none =>
            (.notFound, ⟨some inventory, unlinkFile st.files newFile⟩,
             [.unlink newFile])
        | some old =>
            let inv' := updateFirst inventory rid (fun i => { i with photo := some newFile })
            match old.photo with
            | some oldName =>
                (.okText, ⟨some inv', unlinkFile st.files oldName⟩,
                 [.unlink oldName, .writeDB inv'])
            | none =>
                (.okText, ⟨some inv', st.files⟩, [.writeDB inv'])

/-- `DELETE /inventory/:id`: splice the record out, write the reduced
collection, then unlink its photo (if any). -/
def deleteItem (st : SysState) (idStr : String) :
    Response × SysState × List FsOp :=
  match parseIntBase10 idStr with
  | none => (.badRequest, st, [])
  | some rid =>
    match st.db with
    | none => (.notFound, st, [])
    | some inventory =>
      match inventory.find? (fun i => i.id = rid) with
      | none => (.notFound, st, [])
      | some itemToDelete =>
        let inv' := removeFirst inventory rid
        match itemToDelete.photo with
        | some p =>
            (.okText, ⟨some inv', unlinkFile st.files p⟩,
             [.writeDB inv', .unlink p])
        | none =>
            (.okText, ⟨some inv', st.files⟩, [.writeDB inv'])

/-- `GET /search`.  `id?` and `includePhoto?` are query parameters; a
missing or empty `id` is rejected before parsing. -/
def search (st : SysState) (id? includePhoto? : Option String) :
    Response × SysState × List FsOp :=
  match id? with
  | none => (.badRequest, st, [])
  | some idStr =>
    if idStr = "" then (.badRequest, st, [])
    else
      match parseIntBase10 idStr with
      | none => (.badRequest, st, [])
      | some rid =>
        match st.db with
        | none => (.notFound, st, [])
        | some inventory =>
          match inventory.find? (fun i => i.id = rid) with
          | none => (.notFound, st, [])
          | some it => (.ok (projectSearch includePhoto? it), st, [])

/-- `GET /inventory/:id/photo`: serve the referenced file, 404 when the
item, its photo reference or the file on disk is missing. -/
def getPhoto (st : SysState) (idStr : String) :
    Response × SysState × List FsOp :=
  match parseIntBase10 idStr with
  | none => (.badRequest, st, [])
  | some rid =>
    match st.db with
    | none => (.notFound, st, [])
    | some inventory =>
      match inventory.find? (fun i => i.id = rid) with
      | none => (.notFound, st, [])
      | some it =>
        match it.photo with
        | none => (.notFound, st, [])
        | some p =>
            if p ∈ st.files then (.okFile p, st, []) else (.notFound, st, [])

/-- One request, as the state-transition alphabet of the service. -/
inductive Op where
  | registerOp (name? descr? file? : Option String)
  | getOp (idStr : String)
  | listOp
  | updateOp (idStr : String) (name? descr? : Option String)
  | photoPutOp (idStr : String) (file? : Option String)
  | deleteOp (idStr : String)
  | searchOp (id? includePhoto? : Option String)
  | photoGetOp (idStr : String)

/-- The successor state of one request. -/
def applyOp (st : SysState) : Op → SysState
  | .registerOp n d f => (register st n d f).2.1
  | .getOp i => (getItem st i).2.1
  | .listOp => (listInventory st).2.1
  | .updateOp i n d => (updateItem st i n d).2.1
  | .photoPutOp i f => (updatePhoto st i f).2.1
  | .deleteOp i => (deleteItem st i).2.1
  | .searchOp i p => (search st i p).2.1
  | .photoGetOp i => (getPhoto st i).2.1

/-- States reachable from a fresh start (`db.json` absent, or present
and empty) by any sequence of requests; `stage` is multer writing an
uploaded file into the cache directory before a handler runs. -/
inductive Reachable : SysState → Prop where
  | initAbsent (fs : List String) : Reachable ⟨none, fs⟩
  | initEmpty (fs : List String) : Reachable ⟨some [], fs⟩
  | stage (st : SysState) (f : String) : Reachable st → Reachable ⟨st.db, f :: st.files⟩
  | step (st : SysState) (op : Op) : Reachable st → Reachable (applyOp st op)

/-- Every item of the stored collection has a nonempty name. -/
def namesNonempty (st : SysState) : Prop :=
  ∀ l, st.db = some l → ∀ it ∈ l, it.name ≠ ""

/-- The stored collection is strictly ascending by id. -/
def sortedById (l : List Item) : Prop :=
  l.Pairwise (fun a b => a.id < b.id)

/-- Scan a handler's effect trace: `true` iff no file referenced by a
photo field of the pre-operation collection `pre` is unlinked before
some `writeDB` has occurred.  `written` records whether a `writeDB`
has been seen so far. -/
def writesBeforeRefUnlinks (pre : List Item) (written : Bool) : List FsOp → Bool
  | [] => true
  | .writeDB _ :: rest => writesBeforeRefUnlinks pre true rest
  | .unlink nm :: rest =>
      (written || !(pre.any (fun it => it.photo = some nm))) &&
        writesBeforeRefUnlinks pre written rest

/-- The item `register` appends when it succeeds. -/
def newRegisteredItem (st : SysState) (n : String) (descr? file? : Option String) : Item :=
  ⟨maxIdFold (st.db.getD []) + 1, n, descr?.getD "", file?⟩

/-- A request that supplies an explicit empty string as the new name
of an update. -/
def suppliesEmptyName : Op → Prop
  | .updateOp _ (some n) _ => n = ""
  | _ => False

/-- A response payload that exposes no raw filename: its `photo` key is
absent and its `photo_url`, if present, is the synthesized access path
for its own id. -/
def noRawPhoto (r : ItemResponse) : Prop :=
  r.photo = none ∧ (r.photo_url = none ∨ r.photo_url = some (photoPath r.id))

/-- An item's projected response keeps its id. -/
theorem projectItem_id (it : Item) : (projectItem it).id = it.id := by
  unfold projectItem
  cases it.photo <;> rfl

/-- The fold that computes `maxId` never drops below its accumulator. -/
theorem le_foldl_max (l : List Item) (a : Int) :
    a ≤ l.foldl (fun m it => max m it.id) a := by
  induction l generalizing a with
  | nil => exact le_refl a
  | cons x xs ih => exact le_trans (le_max_left a x.id) (ih (max a x.id))

/-- Every member's id is bounded by the `maxId` fold. -/
theorem mem_le_foldl_max (l : List Item) (a : Int) (x : Item) (hx : x ∈ l) :
    x.id ≤ l.foldl (fun m it => max m it.id) a := by
  induction l generalizing a with
  | nil => cases hx
  | cons y ys ih =>
    rcases List.mem_cons.mp hx with h | h
    · subst h
      exact le_trans (le_max_right a x.id) (le_foldl_max ys (max a x.id))
    · exact ih (max a y.id) h

/-- The `maxId` fold is bounded by any bound on the accumulator and all ids. -/
theorem foldl_max_le (l : List Item) (a m : Int) (ha : a ≤ m)
    (h : ∀ x ∈ l, x.id ≤ m) :
    l.foldl (fun mx it => max mx it.id) a ≤ m := by
  induction l generalizing a with
  | nil => exact ha
  | cons y ys ih =>
    exact ih (max a y.id) (max_le ha (h y (by simp)))
      (fun x hx => h x (by simp [hx]))

/-- Every member's id is at most `maxIdFold`. -/
theorem mem_le_maxIdFold (l : List Item) (x : Item) (hx : x ∈ l) :
    x.id ≤ maxIdFold l := mem_le_foldl_max l 0 x hx

/-- `updateFirst` with an id-preserving rewrite keeps the id sequence. -/
theorem updateFirst_map_id (l : List Item) (rid : Int) (f : Item → Item)
    (hf : ∀ it, (f it).id = it.id) :
    (updateFirst l rid f).map Item.id = l.map Item.id := by
  induction l with
  | nil => rfl
  | cons x xs ih =>
    by_cases hx : x.id = rid
    · simp [updateFirst, hx, hf]
    · simp [updateFirst, hx, ih]

/-- Every member of `updateFirst l rid f` is an old member or the image
of an old member under `f`. -/
theorem mem_updateFirst (l : List Item) (rid : Int) (f : Item → Item)
    (x : Item) (hx : x ∈ updateFirst l rid f) :
    x ∈ l ∨ ∃ y, y ∈ l ∧ x = f y := by
  induction l with
  | nil => cases hx
  | cons z zs ih =>
    by_cases hz : z.id = rid
    · rw [updateFirst, if_pos hz] at hx
      rcases List.mem_cons.mp hx with h | h
      · exact Or.inr ⟨z, by simp, h⟩
      · exact Or.inl (by simp [h])
    · rw [updateFirst, if_neg hz] at hx
      rcases List.mem_cons.mp hx with h | h
      · exact Or.inl (by simp [h])
      · rcases ih h with h2 | ⟨y, hy, hxy⟩
        · exact Or.inl (by simp [h2])
        · exact Or.inr ⟨y, by simp [hy], hxy⟩

/-- Positional frame for `updateFirst`: every slot is either untouched
or holds the image of a matching old item. -/
theorem updateFirst_get? (l : List Item) (rid : Int) (f : Item → Item) (j : Nat) :
    (updateFirst l rid f).get? j = l.get? j ∨
    ∃ x, l.get? j = some x ∧ x.id = rid ∧
      (updateFirst l rid f).get? j = some (f x) := by
  induction l generalizing j with
  | nil => exact Or.inl rfl
  | cons z zs ih =>
    by_cases hz : z.id = rid
    · cases j with
      | zero => exact Or.inr ⟨z, rfl, hz, by simp [updateFirst, hz]⟩
      | succ k => exact Or.inl (by simp [updateFirst, hz])
    · cases j with
      | zero => exact Or.inl (by simp [updateFirst, hz])
      | succ k =>
        rcases ih k with h | ⟨x, h1, h2, h3⟩
        · exact Or.inl (by simpa [updateFirst, hz] using h)
        · exact Or.inr ⟨x, by simpa using h1, h2, by simpa [updateFirst, hz] using h3⟩

/-- `removeFirst` yields a sublist. -/
theorem removeFirst_sublist (l : List Item) (rid : Int) :
    List.Sublist (removeFirst l rid) l := by
  induction l with
  | nil => simp [removeFirst]
  | cons x xs ih =>
    by_cases hx : x.id = rid
    · rw [removeFirst, if_pos hx]
      exact List.sublist_cons_self x xs
    · rw [removeFirst, if_neg hx]
      exact ih.cons₂ x

/-- After `removeFirst`, no item with the removed id remains, provided
ids were pairwise distinct. -/
theorem removeFirst_find?_none (l : List Item) (rid : Int)
    (h : l.Pairwise (fun a b => a.id ≠ b.id)) :
    (removeFirst l rid).find? (fun i => i.id = rid) = none := by
  induction l with
  | nil => rfl
  | cons x xs ih =>
    rcases List.pairwise_cons.mp h with ⟨hx, hxs⟩
    by_cases hid : x.id = rid
    · rw [removeFirst, if_pos hid]
      apply List.find?_eq_none.mpr
      intro y hy
      simp only [decide_eq_true_eq]
      exact fun hyr => (hx y hy) (hid.trans hyr.symm)
    · rw [removeFirst, if_neg hid]
      rw [List.find?_cons_of_neg _ (by simpa using hid)]
      exact ih hxs

/-- Appending an item whose id exceeds every present id keeps the
collection strictly ascending. -/
theorem sorted_append_larger (l : List Item) (it : Item)
    (hs : sortedById l) (hgt : ∀ x ∈ l, x.id < it.id) :
    sortedById (l ++ [it]) := by
  unfold sortedById at hs ⊢
  rw [List.pairwise_append]
  refine ⟨hs, List.pairwise_singleton _ _, ?_⟩
  intro a ha b hb
  rcases List.mem_singleton.mp hb with rfl
  exact hgt a ha

/-- A strictly ascending collection has pairwise distinct ids. -/
theorem sortedById_ne (l : List Item) (hs : sortedById l) :
    l.Pairwise (fun a b => a.id ≠ b.id) :=
  hs.imp (fun h => ne_of_lt h)

/-- `GET /inventory/:id` never changes the state. -/
theorem getItem_state (st : SysState) (i : String) : (getItem st i).2.1 = st := by
  unfold getItem
  repeat' split
  all_goals rfl

/-- `GET /inventory` never changes the state. -/
theorem listInventory_state (st : SysState) : (listInventory st).2.1 = st := by
  unfold listInventory
  split <;> rfl

/-- `GET /search` never changes the state. -/
theorem search_state (st : SysState) (i p : Option String) :
    (search st i p).2.1 = st := by
  unfold search
  repeat' split
  all_goals rfl

/-- `GET /inventory/:id/photo` never changes the state. -/
theorem getPhoto_state (st : SysState) (i : String) : (getPhoto st i).2.1 = st := by
  unfold getPhoto
  repeat' split
  all_goals rfl

/-- `POST /register` either rejects (state unchanged) or appends
`newRegisteredItem` and writes the extended collection. -/
theorem register_cases (st : SysState) (n? d f : Option String) :
    (register st n? d f).2.1 = st ∨
    ∃ n, n? = some n ∧ n ≠ "" ∧
      register st n? d f =
        (.created (rawItem (newRegisteredItem st n d f)),
         ⟨some (st.db.getD [] ++ [newRegisteredItem st n d f]), st.files⟩,
         [.writeDB (st.db.getD [] ++ [newRegisteredItem st n d f])]) := by
  unfold register
  split
  · exact Or.inl rfl
  · rename_i n
    split
    · exact Or.inl rfl
    · rename_i hn
      exact Or.inr ⟨n, rfl, hn, rfl⟩

/-- `PUT /inventory/:id` either leaves the state unchanged or rewrites
the first matching item with `applyUpdate` and writes the collection. -/
theorem updateItem_cases (st : SysState) (i : String) (n d : Option String) :
    (updateItem st i n d).2.1 = st ∨
    ∃ l rid old, st.db = some l ∧ parseIntBase10 i = some rid ∧
      l.find? (fun x => x.id = rid) = some old ∧
      updateItem st i n d =
        (.ok (projectItem (applyUpdate old n d)),
         ⟨some (updateFirst l rid (fun x => applyUpdate x n d)), st.files⟩,
         [.writeDB (updateFirst l rid (fun x => applyUpdate x n d))]) := by
  unfold updateItem
  split
  · exact Or.inl rfl
  · rename_i rid hp
    split
    · exact Or.inl rfl
    · rename_i l hdb
      split
      · exact Or.inl rfl
      · rename_i old hf
        exact Or.inr ⟨l, rid, old, hdb, hp, hf, rfl⟩

/-- The database content after `PUT /inventory/:id/photo`: unchanged,
or the first matching item repointed at the staged filename. -/
theorem updatePhoto_cases (st : SysState) (i : String) (f? : Option String) :
    (updatePhoto st i f?).2.1.db = st.db ∨
    ∃ l rid nf, st.db = some l ∧ f? = some nf ∧
      (updatePhoto st i f?).2.1.db =
        some (updateFirst l rid (fun x => { x with photo := some nf })) := by
  unfold updatePhoto
  split
  · exact Or.inl rfl
  · rename_i rid hp
    split
    · exact Or.inl rfl
    · rename_i nf
      split
      · exact Or.inl rfl
      · rename_i l hdb
        split
        · exact Or.inl hdb.symm
        · rename_i old hf
          split
          · exact Or.inr ⟨l, rid, nf, hdb, rfl, rfl⟩
          · exact Or.inr ⟨l, rid, nf, hdb, rfl, rfl⟩

/-- The database content after `DELETE /inventory/:id`: unchanged, or
the first matching item spliced out. -/
theorem deleteItem_cases (st : SysState) (i : String) :
    (deleteItem st i).2.1.db = st.db ∨
    ∃ l rid, st.db = some l ∧
      (deleteItem st i).2.1.db = some (removeFirst l rid) := by
  unfold deleteItem
  split
  · exact Or.inl rfl
  · rename_i rid hp
    split
    · exact Or.inl rfl
    · rename_i l hdb
      split
      · exact Or.inl rfl
      · rename_i old hf
        split
        · exact Or.inr ⟨l, rid, hdb, rfl⟩
        · exact Or.inr ⟨l, rid, hdb, rfl⟩

/-- Transfer strict id-sortedness along an id-preserving `updateFirst`. -/
theorem sorted_updateFirst (l : List Item) (rid : Int) (f : Item → Item)
    (hf : ∀ it, (f it).id = it.id) (hs : sortedById l) :
    sortedById (updateFirst l rid f) := by
  have h1 : (l.map Item.id).Pairwise (fun a b => a < b) :=
    List.pairwise_map.mpr hs
  rw [← updateFirst_map_id l rid f hf] at h1
  exact List.pairwise_map.mp h1

/-- Every request preserves "the stored collection is strictly
ascending by id". -/
theorem applyOp_sorted (st : SysState) (op : Op)
    (ih : ∀ l, st.db = some l → sortedById l) :
    ∀ l, (applyOp st op).db = some l → sortedById l := by
  have hbase : sortedById (st.db.getD []) := by
    cases hdb : st.db with
    | none => exact List.Pairwise.nil
    | some l0 => exact ih l0 hdb
  cases op with
  | registerOp n d f =>
    rcases register_cases st n d f with h | ⟨n', hn', hne, h⟩
    · intro l hl
      rw [show applyOp st (.registerOp n d f) = (register st n d f).2.1 from rfl,
        h] at hl
      exact ih l hl
    · intro l hl
      rw [show applyOp st (.registerOp n d f) = (register st n d f).2.1 from rfl,
        h] at hl
      cases hl
      apply sorted_append_larger _ _ hbase
      intro x hx
      have := mem_le_maxIdFold _ x hx
      have h2 : (newRegisteredItem st n' d f).id = maxIdFold (st.db.getD []) + 1 := rfl
      omega
  | getOp i =>
    intro l hl
    rw [show applyOp st (.getOp i) = (getItem st i).2.1 from rfl,
      getItem_state st i] at hl
    exact ih l hl
  | listOp =>
    intro l hl
    rw [show applyOp st .listOp = (listInventory st).2.1 from rfl,
      listInventory_state st] at hl
    exact ih l hl
  | updateOp i n d =>
    rcases updateItem_cases st i n d with h | ⟨l0, rid, old, hdb, hp, hf, h⟩
    · intro l hl
      rw [show applyOp st (.updateOp i n d) = (updateItem st i n d).2.1 from rfl,
        h] at hl
      exact ih l hl
    · intro l hl
      rw [show applyOp st (.updateOp i n d) = (updateItem st i n d).2.1 from rfl,
        h] at hl
      cases hl
      exact sorted_updateFirst l0 rid _ (fun it => rfl) (ih l0 hdb)
  | photoPutOp i f =>
    rcases updatePhoto_cases st i f with h | ⟨l0, rid, nf, hdb, hnf, h⟩
    · intro l hl
      rw [show (applyOp st (.photoPutOp i f)).db = (updatePhoto st i f).2.1.db from rfl,
        h] at hl
      exact ih l hl
    · intro l hl
      rw [show (applyOp st (.photoPutOp i f)).db = (updatePhoto st i f).2.1.db from rfl,
        h] at hl
      cases hl
      exact sorted_updateFirst l0 rid _ (fun it => rfl) (ih l0 hdb)
  | deleteOp i =>
    rcases deleteItem_cases st i with h | ⟨l0, rid, hdb, h⟩
    · intro l hl
      rw [show (applyOp st (.deleteOp i)).db = (deleteItem st i).2.1.db from rfl,
        h] at hl
      exact ih l hl
    · intro l hl
      rw [show (applyOp st (.deleteOp i)).db = (deleteItem st i).2.1.db from rfl,
        h] at hl
      cases hl
      exact (ih l0 hdb).sublist (removeFirst_sublist l0 rid)
  | searchOp i p =>
    intro l hl
    rw [show applyOp st (.searchOp i p) = (search st i p).2.1 from rfl,
      search_state st i p] at hl
    exact ih l hl
  | photoGetOp i =>
    intro l hl
    rw [show applyOp st (.photoGetOp i) = (getPhoto st i).2.1 from rfl,
      getPhoto_state st i] at hl
    exact ih l hl

/-- In every reachable state the stored collection is strictly
ascending by id. -/
theorem reachable_sorted (st : SysState) (h : Reachable st) :
    ∀ l, st.db = some l → sortedById l := by
  induction h with
  | initAbsent fs => intro l hl; cases hl
  | initEmpty fs =>
    intro l hl
    cases hl
    exact List.Pairwise.nil
  | stage st f _ ih => intro l hl; exact ih l hl
  | step st op _ ih => exact applyOp_sorted st op ih

/-- Members of the read-or-default collection have nonempty names. -/
theorem names_getD (st : SysState) (h : namesNonempty st) :
    ∀ it ∈ st.db.getD [], it.name ≠ "" := by
  cases hdb : st.db with
  | none =>
    intro it hit
    cases hit
  | some l =>
    intro it hit
    exact h l hdb it hit

/-- Every request other than an update that supplies an empty name
preserves "every stored item has a nonempty name". -/
theorem applyOp_names (st : SysState) (op : Op)
    (h : namesNonempty st) (hop : ¬ suppliesEmptyName op) :
    namesNonempty (applyOp st op) := by
  cases op with
  | registerOp n d f =>
    rcases register_cases st n d f with heq | ⟨n', hn', hne, heq⟩
    · show namesNonempty (register st n d f).2.1
      rw [heq]; exact h
    · show namesNonempty (register st n d f).2.1
      rw [heq]
      intro l hl
      cases hl
      intro it hit
      rcases List.mem_append.mp hit with h1 | h1
      · exact names_getD st h it h1
      · rcases List.mem_singleton.mp h1 with rfl
        exact hne
  | getOp i =>
    intro l hl
    have hl2 : (getItem st i).2.1.db = some l := hl
    rw [getItem_state] at hl2
    exact h l hl2
  | listOp =>
    intro l hl
    have hl2 : (listInventory st).2.1.db = some l := hl
    rw [listInventory_state] at hl2
    exact h l hl2
  | updateOp i n d =>
    rcases updateItem_cases st i n d with heq | ⟨l0, rid, old, hdb, hp, hf, heq⟩
    · show namesNonempty (updateItem st i n d).2.1
      rw [heq]; exact h
    · show namesNonempty (updateItem st i n d).2.1
      rw [heq]
      intro l hl
      cases hl
      intro it hit
      rcases mem_updateFirst _ _ _ _ hit with h1 | ⟨y, hy, rfl⟩
      · exact h l0 hdb it h1
      · cases n with
        | none => exact h l0 hdb y hy
        | some nm => exact fun hc => hop hc
  | photoPutOp i f =>
    rcases updatePhoto_cases st i f with heq | ⟨l0, rid, nf, hdb, hnf, heq⟩
    · intro l hl
      have hl2 : (updatePhoto st i f).2.1.db = some l := hl
      rw [heq] at hl2
      exact h l hl2
    · intro l hl
      have hl2 : (updatePhoto st i f).2.1.db = some l := hl
      rw [heq] at hl2
      cases hl2
      intro it hit
      rcases mem_updateFirst _ _ _ _ hit with h1 | ⟨y, hy, rfl⟩
      · exact h l0 hdb it h1
      · exact h l0 hdb y hy
  | deleteOp i =>
    rcases deleteItem_cases st i with heq | ⟨l0, rid, hdb, heq⟩
    · intro l hl
      have hl2 : (deleteItem st i).2.1.db = some l := hl
      rw [heq] at hl2
      exact h l hl2
    · intro l hl
      have hl2 : (deleteItem st i).2.1.db = some l := hl
      rw [heq] at hl2
      cases hl2
      intro it hit
      exact h l0 hdb it ((removeFirst_sublist l0 rid).subset hit)
  | searchOp i p =>
    intro l hl
    have hl2 : (search st i p).2.1.db = some l := hl
    rw [search_state] at hl2
    exact h l hl2
  | photoGetOp i =>
    intro l hl
    have hl2 : (getPhoto st i).2.1.db = some l := hl
    rw [getPhoto_state] at hl2
    exact h l hl2

/-- C5: a successful `register` appends a record whose id is
`maxId + 1` where `maxId` is the `Math.max`-fold over the collection
(so the id of any present item is strictly exceeded, ids allocated by
successive registers are strictly increasing and never collide, the
first id of an empty collection is 1, and when the present maximum is
`m ≥ 0` the allocated id is exactly `m + 1`); a strictly ascending
collection stays strictly ascending. -/
theorem C5_register_id_allocation (st : SysState) (n : String) (hn : n ≠ "")
    (d f : Option String) :
    register st (some n) d f =
      (.created (rawItem (newRegisteredItem st n d f)),
       ⟨some (st.db.getD [] ++ [newRegisteredItem st n d f]), st.files⟩,
       [.writeDB (st.db.getD [] ++ [newRegisteredItem st n d f])]) ∧
    (newRegisteredItem st n d f).id = maxIdFold (st.db.getD []) + 1 ∧
    (∀ x ∈ st.db.getD [], x.id < (newRegisteredItem st n d f).id) ∧
    (st.db.getD [] = [] → (newRegisteredItem st n d f).id = 1) ∧
    (∀ m : Int, 0 ≤ m → (∀ x ∈ st.db.getD [], x.id ≤ m) →
      (∃ x ∈ st.db.getD [], x.id = m) → (newRegisteredItem st n d f).id = m + 1) ∧
    (sortedById (st.db.getD []) →
      sortedById (st.db.getD [] ++ [newRegisteredItem st n d f])) := by
  have hid : (newRegisteredItem st n d f).id = maxIdFold (st.db.getD []) + 1 := rfl
  have hlt : ∀ x ∈ st.db.getD [], x.id < (newRegisteredItem st n d f).id := by
    intro x hx
    have hb := mem_le_maxIdFold _ x hx
    omega
  refine ⟨?_, hid, hlt, ?_, ?_, ?_⟩
  · have hreg : register st (some n) d f =
        if n = "" then (.badRequest, st, [])
        else (.created (rawItem (newRegisteredItem st n d f)),
              ⟨some (st.db.getD [] ++ [newRegisteredItem st n d f]), st.files⟩,
              [.writeDB (st.db.getD [] ++ [newRegisteredItem st n d f])]) := rfl
    rw [hreg, if_neg hn]
  · intro hempty
    rw [hid, hempty]
    decide
  · intro m hm hub ⟨x, hx, hxm⟩
    have h1 : maxIdFold (st.db.getD []) ≤ m := foldl_max_le _ 0 m hm hub
    have h2 : m ≤ maxIdFold (st.db.getD []) := hxm ▸ mem_le_maxIdFold _ x hx
    omega
  · intro hs
    exact sorted_append_larger _ _ hs hlt

/-- Witness for C5 at a concrete one-item collection. -/
theorem C5_register_id_allocation_witness :
    register ⟨some [⟨1, "A", "", none⟩], []⟩ (some "B") none none =
      (.created (rawItem (newRegisteredItem ⟨some [⟨1, "A", "", none⟩], []⟩ "B" none none)),
       ⟨some ((⟨some [⟨1, "A", "", none⟩], []⟩ : SysState).db.getD [] ++
          [newRegisteredItem ⟨some [⟨1, "A", "", none⟩], []⟩ "B" none none]),
        []⟩,
       [.writeDB ((⟨some [⟨1, "A", "", none⟩], []⟩ : SysState).db.getD [] ++
          [newRegisteredItem ⟨some [⟨1, "A", "", none⟩], []⟩ "B" none none])]) ∧
    (newRegisteredItem ⟨some [⟨1, "A", "", none⟩], []⟩ "B" none none).id =
      maxIdFold ((⟨some [⟨1, "A", "", none⟩], []⟩ : SysState).db.getD []) + 1 ∧
    (∀ x ∈ (⟨some [⟨1, "A", "", none⟩], []⟩ : SysState).db.getD [],
      x.id < (newRegisteredItem ⟨some [⟨1, "A", "", none⟩], []⟩ "B" none none).id) ∧
    ((⟨some [⟨1, "A", "", none⟩], []⟩ : SysState).db.getD [] = [] →
      (newRegisteredItem ⟨some [⟨1, "A", "", none⟩], []⟩ "B" none none).id = 1) ∧
    (∀ m : Int, 0 ≤ m →
      (∀ x ∈ (⟨some [⟨1, "A", "", none⟩], []⟩ : SysState).db.getD [], x.id ≤ m) →
      (∃ x ∈ (⟨some [⟨1, "A", "", none⟩], []⟩ : SysState).db.getD [], x.id = m) →
      (newRegisteredItem ⟨some [⟨1, "A", "", none⟩], []⟩ "B" none none).id = m + 1) ∧
    (sortedById ((⟨some [⟨1, "A", "", none⟩], []⟩ : SysState).db.getD []) →
      sortedById ((⟨some [⟨1, "A", "", none⟩], []⟩ : SysState).db.getD [] ++
        [newRegisteredItem ⟨some [⟨1, "A", "", none⟩], []⟩ "B" none none])) :=
  C5_register_id_allocation ⟨some [⟨1, "A", "", none⟩], []⟩ "B" (by decide) none none

/-- C6: in every reachable state whose database file exists, the list
endpoint returns the entire stored collection, projected, in stored
order, and that order is strictly ascending by id. -/
theorem C6_list_sorted_snapshot (st : SysState) (h : Reachable st)
    (l : List Item) (hdb : st.db = some l) :
    listInventory st = (.okList (l.map projectItem), st, []) ∧
    sortedById l ∧
    (l.map projectItem).Pairwise (fun a b => a.id < b.id) := by
  have hs := reachable_sorted st h l hdb
  refine ⟨?_, hs, ?_⟩
  · unfold listInventory
    rw [hdb]
  · apply List.pairwise_map.mpr
    exact hs.imp (fun {a b} hab => by rw [projectItem_id, projectItem_id]; exact hab)

/-- Witness for C6 after one concrete register step. -/
theorem C6_list_sorted_snapshot_witness :
    listInventory ⟨some [⟨1, "A", "", none⟩], []⟩ =
      (.okList ([⟨1, "A", "", none⟩].map projectItem),
       ⟨some [⟨1, "A", "", none⟩], []⟩, []) ∧
    sortedById [⟨1, "A", "", none⟩] ∧
    ([⟨1, "A", "", none⟩].map projectItem).Pairwise (fun a b => a.id < b.id) := by
  have h0 : Reachable (⟨none, []⟩ : SysState) := Reachable.initAbsent []
  have h1 := Reachable.step _ (.registerOp (some "A") none none) h0
  have e1 : applyOp ⟨none, []⟩ (.registerOp (some "A") none none) =
      ⟨some [⟨1, "A", "", none⟩], []⟩ := rfl
  rw [e1] at h1
  exact C6_list_sorted_snapshot _ h1 [⟨1, "A", "", none⟩] rfl

/-- C3 as stated is false: from the empty collection, `register "A"`
followed by `update(1, name="")` reaches a state whose only live item
has the empty name — `PUT /inventory/:id` applies a supplied empty
string (`name !== undefined` is true for `""`). -/
theorem C3_counterexample :
    Reachable ⟨some [⟨1, "", "", none⟩], []⟩ ∧
    ¬ namesNonempty ⟨some [⟨1, "", "", none⟩], []⟩ := by
  constructor
  · have h0 : Reachable (⟨none, []⟩ : SysState) := Reachable.initAbsent []
    have h1 := Reachable.step _ (.registerOp (some "A") none none) h0
    have e1 : applyOp ⟨none, []⟩ (.registerOp (some "A") none none) =
        ⟨some [⟨1, "A", "", none⟩], []⟩ := rfl
    rw [e1] at h1
    have h2 := Reachable.step _ (.updateOp "1" (some "") none) h1
    have e2 : applyOp ⟨some [⟨1, "A", "", none⟩], []⟩ (.updateOp "1" (some "") none) =
        ⟨some [⟨1, "", "", none⟩], []⟩ := rfl
    rw [e2] at h2
    exact h2
  · intro h
    exact h [⟨1, "", "", none⟩] rfl ⟨1, "", "", none⟩ (by simp) rfl

/-- C3 amended: `register` rejects an absent or empty name without
touching the state, and every request EXCEPT an update that explicitly
supplies an empty-string name preserves "every live item has a
nonempty name"; an update supplying `name=""` can violate it. -/
theorem C3_names_nonempty_amended (st : SysState) (op : Op) (d f : Option String)
    (h : namesNonempty st) (hop : ¬ suppliesEmptyName op) :
    namesNonempty (applyOp st op) ∧
    register st (some "") d f = (.badRequest, st, []) ∧
    register st none d f = (.badRequest, st, []) :=
  ⟨applyOp_names st op h hop, rfl, rfl⟩

/-- Witness for the amended C3 at a concrete state and update. -/
theorem C3_names_nonempty_amended_witness :
    namesNonempty (applyOp ⟨some [⟨1, "A", "", none⟩], []⟩
      (.updateOp "1" (some "B") none)) ∧
    register ⟨some [⟨1, "A", "", none⟩], []⟩ (some "") none none =
      (.badRequest, ⟨some [⟨1, "A", "", none⟩], []⟩, []) ∧
    register ⟨some [⟨1, "A", "", none⟩], []⟩ none none none =
      (.badRequest, ⟨some [⟨1, "A", "", none⟩], []⟩, []) :=
  C3_names_nonempty_amended ⟨some [⟨1, "A", "", none⟩], []⟩
    (.updateOp "1" (some "B") none) none none
    (by
      intro l hl
      cases hl
      intro it hit
      rcases List.mem_singleton.mp hit with rfl
      decide)
    (by intro hc; exact absurd (show ("B" : String) = "" from hc) (by decide))

/-- Evaluation of `GET /inventory/:id` once the id has parsed. -/
theorem getItem_eq (l : List Item) (fs : List String) (idStr : String) (rid : Int)
    (hid : parseIntBase10 idStr = some rid) :
    getItem ⟨some l, fs⟩ idStr =
      match l.find? (fun i => i.id = rid) with
      | none => (.notFound, ⟨some l, fs⟩, [])
      | some it => (.ok (projectItem it), ⟨some l, fs⟩, []) := by
  unfold getItem
  rw [hid]

/-- Evaluation of `PUT /inventory/:id` once the id has parsed. -/
theorem updateItem_eq (l : List Item) (fs : List String) (idStr : String)
    (rid : Int) (name? descr? : Option String)
    (hid : parseIntBase10 idStr = some rid) :
    updateItem ⟨some l, fs⟩ idStr name? descr? =
      match l.find? (fun i => i.id = rid) with
      | none => (.notFound, ⟨some l, fs⟩, [])
      | some old =>
          (.ok (projectItem (applyUpdate old name? descr?)),
           ⟨some (updateFirst l rid fun x => applyUpdate x name? descr?), fs⟩,
           [.writeDB (updateFirst l rid fun x => applyUpdate x name? descr?)]) := by
  unfold updateItem
  rw [hid]

/-- Evaluation of `PUT /inventory/:id/photo` once the id has parsed and
a file is staged. -/
theorem updatePhoto_eq (l : List Item) (fs : List String) (idStr : String)
    (rid : Int) (newFile : String)
    (hid : parseIntBase10 idStr = some rid) :
    updatePhoto ⟨some l, fs⟩ idStr (some newFile) =
      match l.find? (fun i => i.id = rid) with
      | none => (.notFound, ⟨some l, unlinkFile fs newFile⟩, [.unlink newFile])
      | some old =>
          match old.photo with
          | some oldName =>
              (.okText,
               ⟨some (updateFirst l rid fun x => { x with photo := some newFile }),
                unlinkFile fs oldName⟩,
               [.unlink oldName,
                .writeDB (updateFirst l rid fun x => { x with photo := some newFile })])
          | none =>
              (.okText,
               ⟨some (updateFirst l rid fun x => { x with photo := some newFile }), fs⟩,
               [.writeDB (updateFirst l rid fun x => { x with photo := some newFile })]) := by
  unfold updatePhoto
  rw [hid]

/-- Evaluation of `DELETE /inventory/:id` once the id has parsed. -/
theorem deleteItem_eq (l : List Item) (fs : List String) (idStr : String) (rid : Int)
    (hid : parseIntBase10 idStr = some rid) :
    deleteItem ⟨some l, fs⟩ idStr =
      match l.find? (fun i => i.id = rid) with
      | none => (.notFound, ⟨some l, fs⟩, [])
      | some itemToDelete =>
          match itemToDelete.photo with
          | some p =>
              (.okText, ⟨some (removeFirst l rid), unlinkFile fs p⟩,
               [.writeDB (removeFirst l rid), .unlink p])
          | none =>
              (.okText, ⟨some (removeFirst l rid), fs⟩,
               [.writeDB (removeFirst l rid)]) := by
  unfold deleteItem
  rw [hid]

/-- Evaluation of `GET /search` once the id has parsed. -/
theorem search_eq (l : List Item) (fs : List String) (idStr : String) (rid : Int)
    (ip : Option String) (hne : idStr ≠ "")
    (hid : parseIntBase10 idStr = some rid) :
    search ⟨some l, fs⟩ (some idStr) ip =
      match l.find? (fun i => i.id = rid) with
      | none => (.notFound, ⟨some l, fs⟩, [])
      | some it => (.ok (projectSearch ip it), ⟨some l, fs⟩, []) := by
  have h1 : search ⟨some l, fs⟩ (some idStr) ip =
      if idStr = "" then (.badRequest, ⟨some l, fs⟩, [])
      else
        match parseIntBase10 idStr with
        | none => (.badRequest, ⟨some l, fs⟩, [])
        | some rid =>
          match l.find? (fun i => i.id = rid) with
          | none => (.notFound, ⟨some l, fs⟩, [])
          | some it => (.ok (projectSearch ip it), ⟨some l, fs⟩, []) := rfl
  rw [h1, if_neg hne, hid]

/-- C7: `PUT /inventory/:id` on an unknown id answers NotFound and
changes nothing; on a known id it replaces exactly the supplied fields
of the first matching item (id and photo are never touched, an omitted
field keeps its prior value, a supplied field takes the supplied
value), and every item at a position whose id differs is unchanged. -/
theorem C7_update_partial_frame (l : List Item) (fs : List String) (idStr : String)
    (rid : Int) (name? descr? : Option String)
    (hid : parseIntBase10 idStr = some rid) :
    (l.find? (fun i => i.id = rid) = none →
      updateItem ⟨some l, fs⟩ idStr name? descr? = (.notFound, ⟨some l, fs⟩, [])) ∧
    (∀ old, l.find? (fun i => i.id = rid) = some old →
      updateItem ⟨some l, fs⟩ idStr name? descr? =
        (.ok (projectItem (applyUpdate old name? descr?)),
         ⟨some (updateFirst l rid fun x => applyUpdate x name? descr?), fs⟩,
         [.writeDB (updateFirst l rid fun x => applyUpdate x name? descr?)]) ∧
      (applyUpdate old name? descr?).id = old.id ∧
      (applyUpdate old name? descr?).photo = old.photo ∧
      (name? = none → (applyUpdate old name? descr?).name = old.name) ∧
      (descr? = none → (applyUpdate old name? descr?).description = old.description) ∧
      (∀ nm, name? = some nm → (applyUpdate old name? descr?).name = nm) ∧
      (∀ dm, descr? = some dm → (applyUpdate old name? descr?).description = dm) ∧
      (∀ j x, l.get? j = some x → x.id ≠ rid →
        (updateFirst l rid fun i => applyUpdate i name? descr?).get? j = some x)) := by
  have he := updateItem_eq l fs idStr rid name? descr? hid
  constructor
  · intro hnone
    rw [he, hnone]
  · intro old hold
    rw [hold] at he
    refine ⟨he, rfl, rfl, ?_, ?_, ?_, ?_, ?_⟩
    · intro h; subst h; rfl
    · intro h; subst h; rfl
    · intro nm h; subst h; rfl
    · intro dm h; subst h; rfl
    · intro j x hx hne
      rcases updateFirst_get? l rid (fun i => applyUpdate i name? descr?) j with
        h | ⟨y, h1, h2, h3⟩
      · rw [h]; exact hx
      · rw [hx] at h1
        injection h1 with h4
        subst h4
        exact absurd h2 hne

/-- Witness for C7: update of the name only, at a one-item collection. -/
theorem C7_update_partial_frame_witness :
    updateItem ⟨some [⟨1, "A", "d", some "p.png"⟩], []⟩ "1" (some "N") none =
      (.ok (projectItem (applyUpdate ⟨1, "A", "d", some "p.png"⟩ (some "N") none)),
       ⟨some (updateFirst [⟨1, "A", "d", some "p.png"⟩] 1
          fun x => applyUpdate x (some "N") none), []⟩,
       [.writeDB (updateFirst [⟨1, "A", "d", some "p.png"⟩] 1
          fun x => applyUpdate x (some "N") none)]) :=
  ((C7_update_partial_frame [⟨1, "A", "d", some "p.png"⟩] [] "1" 1 (some "N") none
      rfl).2 ⟨1, "A", "d", some "p.png"⟩ rfl).1

/-- C8: `PUT /inventory/:id/photo` with a staged file and an id absent
from the collection unlinks the staged file (which is then gone from
the cache directory), answers NotFound, and leaves the collection as
it was. -/
theorem C8_photo_update_unknown_id (l : List Item) (fs : List String)
    (idStr : String) (rid : Int) (newFile : String)
    (hid : parseIntBase10 idStr = some rid)
    (habs : l.find? (fun i => i.id = rid) = none) :
    updatePhoto ⟨some l, fs⟩ idStr (some newFile) =
      (.notFound, ⟨some l, unlinkFile fs newFile⟩, [.unlink newFile]) ∧
    newFile ∉ unlinkFile fs newFile := by
  have he := updatePhoto_eq l fs idStr rid newFile hid
  rw [habs] at he
  exact ⟨he, by simp [unlinkFile]⟩

/-- Witness for C8 at a one-item collection and an unknown id. -/
theorem C8_photo_update_unknown_id_witness :
    updatePhoto ⟨some [⟨1, "A", "", none⟩], ["n.png"]⟩ "2" (some "n.png") =
      (.notFound, ⟨some [⟨1, "A", "", none⟩], unlinkFile ["n.png"] "n.png"⟩,
       [.unlink "n.png"]) ∧
    "n.png" ∉ unlinkFile ["n.png"] "n.png" :=
  C8_photo_update_unknown_id [⟨1, "A", "", none⟩] ["n.png"] "2" 2 "n.png" rfl rfl

/-- C9: a successful delete answers OK; a get of the same id on the
resulting state answers NotFound; and if the deleted item referenced a
photo file, that file is no longer in the cache directory. -/
theorem C9_delete_removes_item_and_photo (l : List Item) (fs : List String)
    (idStr : String) (rid : Int) (old : Item)
    (hid : parseIntBase10 idStr = some rid)
    (hdist : l.Pairwise (fun a b => a.id ≠ b.id))
    (hfind : l.find? (fun i => i.id = rid) = some old) :
    (deleteItem ⟨some l, fs⟩ idStr).1 = .okText ∧
    (getItem (deleteItem ⟨some l, fs⟩ idStr).2.1 idStr).1 = .notFound ∧
    (∀ p, old.photo = some p → p ∉ (deleteItem ⟨some l, fs⟩ idStr).2.1.files) := by
  have he0 := deleteItem_eq l fs idStr rid hid
  rw [hfind] at he0
  have he : deleteItem ⟨some l, fs⟩ idStr =
      match old.photo with
      | some p =>
          (.okText, ⟨some (removeFirst l rid), unlinkFile fs p⟩,
           [.writeDB (removeFirst l rid), .unlink p])
      | none =>
          (.okText, ⟨some (removeFirst l rid), fs⟩,
           [.writeDB (removeFirst l rid)]) := he0
  have hrem := removeFirst_find?_none l rid hdist
  cases hp : old.photo with
  | some p =>
    rw [hp] at he
    refine ⟨by rw [he], ?_, ?_⟩
    · have hg := getItem_eq (removeFirst l rid) (unlinkFile fs p) idStr rid hid
      rw [hrem] at hg
      have hstate : (deleteItem ⟨some l, fs⟩ idStr).2.1 =
          ⟨some (removeFirst l rid), unlinkFile fs p⟩ := by rw [he]
      rw [hstate, hg]
    · intro q hq
      injection hq with hq2
      subst hq2
      have hfiles : (deleteItem ⟨some l, fs⟩ idStr).2.1.files = unlinkFile fs p := by
        rw [he]
      rw [hfiles]
      simp [unlinkFile]
  | none =>
    rw [hp] at he
    refine ⟨by rw [he], ?_, ?_⟩
    · have hg := getItem_eq (removeFirst l rid) fs idStr rid hid
      rw [hrem] at hg
      have hstate : (deleteItem ⟨some l, fs⟩ idStr).2.1 =
          ⟨some (removeFirst l rid), fs⟩ := by rw [he]
      rw [hstate, hg]
    · intro q hq
      cases hq

/-- Witness for C9: delete of a one-item collection with a photo. -/
theorem C9_delete_removes_item_and_photo_witness :
    (deleteItem ⟨some [⟨1, "A", "", some "p.png"⟩], ["p.png"]⟩ "1").1 = .okText ∧
    (getItem (deleteItem ⟨some [⟨1, "A", "", some "p.png"⟩], ["p.png"]⟩ "1").2.1
      "1").1 = .notFound ∧
    (∀ p, (⟨1, "A", "", some "p.png"⟩ : Item).photo = some p →
      p ∉ (deleteItem ⟨some [⟨1, "A", "", some "p.png"⟩], ["p.png"]⟩ "1").2.1.files) :=
  C9_delete_removes_item_and_photo [⟨1, "A", "", some "p.png"⟩] ["p.png"] "1" 1
    ⟨1, "A", "", some "p.png"⟩ rfl (by simp) rfl

/-- The projected serialization never carries a raw filename. -/
theorem projectItem_noRaw (it : Item) : noRawPhoto (projectItem it) := by
  unfold noRawPhoto projectItem
  split
  · exact ⟨rfl, Or.inr rfl⟩
  · exact ⟨rfl, Or.inl rfl⟩

/-- The search serialization never carries a raw filename. -/
theorem projectSearch_noRaw (ip : Option String) (it : Item) :
    noRawPhoto (projectSearch ip it) := by
  unfold projectSearch
  split
  · exact projectItem_noRaw it
  · exact ⟨rfl, Or.inl rfl⟩

/-- C10: when `db.json` is absent, `register` treats the collection as
empty, succeeds and writes the one-record collection (creating the
file), while get, list, update, photo update, delete, search and photo
fetch all answer NotFound (never an internal error); the photo update
returns without unlinking the staged file. -/
theorem C10_db_file_absent (fs : List String) (n : String) (hn : n ≠ "")
    (d f : Option String) (idStr : String) (rid : Int)
    (hid : parseIntBase10 idStr = some rid) (nf : String)
    (nm dm ip : Option String) :
    register ⟨none, fs⟩ (some n) d f =
      (.created (rawItem ⟨1, n, d.getD "", f⟩), ⟨some [⟨1, n, d.getD "", f⟩], fs⟩,
       [.writeDB [⟨1, n, d.getD "", f⟩]]) ∧
    getItem ⟨none, fs⟩ idStr = (.notFound, ⟨none, fs⟩, []) ∧
    listInventory ⟨none, fs⟩ = (.notFound, ⟨none, fs⟩, []) ∧
    updateItem ⟨none, fs⟩ idStr nm dm = (.notFound, ⟨none, fs⟩, []) ∧
    updatePhoto ⟨none, fs⟩ idStr (some nf) = (.notFound, ⟨none, fs⟩, []) ∧
    deleteItem ⟨none, fs⟩ idStr = (.notFound, ⟨none, fs⟩, []) ∧
    search ⟨none, fs⟩ (some idStr) ip = (.notFound, ⟨none, fs⟩, []) ∧
    getPhoto ⟨none, fs⟩ idStr = (.notFound, ⟨none, fs⟩, []) := by
  have hne : idStr ≠ "" := by
    intro hcon
    rw [hcon] at hid
    have hcast : (none : Option Int) = some rid := hid
    cases hcast
  refine ⟨?_, ?_, rfl, ?_, ?_, ?_, ?_, ?_⟩
  · have hreg : register ⟨none, fs⟩ (some n) d f =
        if n = "" then (.badRequest, ⟨none, fs⟩, [])
        else (.created (rawItem ⟨1, n, d.getD "", f⟩),
              ⟨some [⟨1, n, d.getD "", f⟩], fs⟩,
              [.writeDB [⟨1, n, d.getD "", f⟩]]) := rfl
    rw [hreg, if_neg hn]
  · unfold getItem; rw [hid]
  · unfold updateItem; rw [hid]
  · unfold updatePhoto; rw [hid]
  · unfold deleteItem; rw [hid]
  · have h1 : search ⟨none, fs⟩ (some idStr) ip =
        if idStr = "" then (.badRequest, ⟨none, fs⟩, [])
        else
          match parseIntBase10 idStr with
          | none => (.badRequest, ⟨none, fs⟩, [])
          | some rid2 => (.notFound, ⟨none, fs⟩, []) := rfl
    rw [h1, if_neg hne, hid]
  · unfold getPhoto; rw [hid]

/-- Witness for C10 on concrete inputs with the database file absent. -/
theorem C10_db_file_absent_witness :
    register ⟨none, []⟩ (some "A") none none =
      (.created (rawItem ⟨1, "A", Option.getD none "", none⟩),
       ⟨some [⟨1, "A", Option.getD none "", none⟩], []⟩,
       [.writeDB [⟨1, "A", Option.getD none "", none⟩]]) ∧
    getItem ⟨none, []⟩ "1" = (.notFound, ⟨none, []⟩, []) ∧
    listInventory ⟨none, []⟩ = (.notFound, ⟨none, []⟩, []) ∧
    updateItem ⟨none, []⟩ "1" none none = (.notFound, ⟨none, []⟩, []) ∧
    updatePhoto ⟨none, []⟩ "1" (some "x.png") = (.notFound, ⟨none, []⟩, []) ∧
    deleteItem ⟨none, []⟩ "1" = (.notFound, ⟨none, []⟩, []) ∧
    search ⟨none, []⟩ (some "1") none = (.notFound, ⟨none, []⟩, []) ∧
    getPhoto ⟨none, []⟩ "1" = (.notFound, ⟨none, []⟩, []) :=
  C10_db_file_absent [] "A" (by decide) none none "1" 1 rfl "x.png" none none none

/-- C4 is false as stated: "12abc" is not a base-10 integer numeral,
yet `parseInt` reads its digit run, so `GET /search?id=12abc` over the
empty collection answers NotFound, not ValidationError; likewise an id
of a no-break space followed by "5" is not a numeral, yet `parseInt`
skips the space, reads 5 and the lookup answers NotFound. -/
theorem C4_counterexample :
    isBase10Numeral "12abc" = false ∧
    (search ⟨some [], []⟩ (some "12abc") none).1 = .notFound ∧
    isBase10Numeral "\u00A05" = false ∧
    parseIntBase10 "\u00A05" = some 5 ∧
    (search ⟨some [], []⟩ (some "\u00A05") none).1 = .notFound :=
  ⟨rfl, rfl, rfl, rfl, rfl⟩

/-- C4 amended: every id-taking operation rejects with ValidationError
exactly the id strings on which base-10 `parseInt` yields NaN (no
leading digit run); an id string with a digit run before junk is
instead treated as that integer and can produce NotFound. -/
theorem C4_parse_failure_validation (st : SysState) (idStr : String)
    (h : parseIntBase10 idStr = none) :
    getItem st idStr = (.badRequest, st, []) ∧
    getPhoto st idStr = (.badRequest, st, []) ∧
    (∀ nm dm, updateItem st idStr nm dm = (.badRequest, st, [])) ∧
    (∀ f, updatePhoto st idStr f = (.badRequest, st, [])) ∧
    deleteItem st idStr = (.badRequest, st, []) ∧
    (∀ ip, search st (some idStr) ip = (.badRequest, st, [])) := by
  refine ⟨?_, ?_, ?_, ?_, ?_, ?_⟩
  · unfold getItem; rw [h]
  · unfold getPhoto; rw [h]
  · intro nm dm; unfold updateItem; rw [h]
  · intro f; unfold updatePhoto; rw [h]
  · unfold deleteItem; rw [h]
  · intro ip
    by_cases hne : idStr = ""
    · subst hne
      rfl
    · have h1 : search st (some idStr) ip =
          if idStr = "" then (.badRequest, st, [])
          else
            match parseIntBase10 idStr with
            | none => (.badRequest, st, [])
            | some rid =>
              match st.db with
              | none => (.notFound, st, [])
              | some inventory =>
                match inventory.find? (fun i => i.id = rid) with
                | none => (.notFound, st, [])
                | some it => (.ok (projectSearch ip it), st, []) := rfl
      rw [h1, if_neg hne, h]

/-- Witness for the amended C4 at the id string "abc". -/
theorem C4_parse_failure_validation_witness :
    getItem ⟨some [], []⟩ "abc" = (.badRequest, ⟨some [], []⟩, []) ∧
    getPhoto ⟨some [], []⟩ "abc" = (.badRequest, ⟨some [], []⟩, []) ∧
    (∀ nm dm, updateItem ⟨some [], []⟩ "abc" nm dm =
      (.badRequest, ⟨some [], []⟩, [])) ∧
    (∀ f, updatePhoto ⟨some [], []⟩ "abc" f = (.badRequest, ⟨some [], []⟩, [])) ∧
    deleteItem ⟨some [], []⟩ "abc" = (.badRequest, ⟨some [], []⟩, []) ∧
    (∀ ip, search ⟨some [], []⟩ (some "abc") ip =
      (.badRequest, ⟨some [], []⟩, [])) :=
  C4_parse_failure_validation ⟨some [], []⟩ "abc" rfl

/-- C1 is false as stated: the register response serializes the new
record raw, so when a photo was uploaded its stored filename is the
`photo` field of the response payload and no derived path is sent. -/
theorem C1_counterexample :
    (register ⟨none, ["f.png"]⟩ (some "A") none (some "f.png")).1 =
      .created ⟨1, "A", "", some "f.png", none⟩ ∧
    ¬ noRawPhoto ⟨1, "A", "", some "f.png", none⟩ :=
  ⟨rfl, fun h => absurd (show (some "f.png" : Option String) = none from h.1)
    (by decide)⟩

/-- C1 amended: the list, get, update and search responses never carry
a raw filename — their `photo` key is dropped and any `photo_url` they
carry is the synthesized `/inventory/{id}/photo` path — but the
register response does carry the raw stored filename. -/
theorem C1_projected_responses (st : SysState) :
    (∀ idStr r, (getItem st idStr).1 = .ok r → noRawPhoto r) ∧
    (∀ rs, (listInventory st).1 = .okList rs → ∀ r ∈ rs, noRawPhoto r) ∧
    (∀ idStr nm dm r, (updateItem st idStr nm dm).1 = .ok r → noRawPhoto r) ∧
    (∀ i ip r, (search st i ip).1 = .ok r → noRawPhoto r) := by
  refine ⟨?_, ?_, ?_, ?_⟩
  · intro idStr r hr
    unfold getItem at hr
    split at hr
    · exact Response.noConfusion hr
    · split at hr
      · exact Response.noConfusion hr
      · split at hr
        · exact Response.noConfusion hr
        · injection hr with h2
          subst h2
          exact projectItem_noRaw _
  · intro rs hr
    unfold listInventory at hr
    split at hr
    · exact Response.noConfusion hr
    · injection hr with h2
      subst h2
      intro r hrmem
      rcases List.mem_map.mp hrmem with ⟨it, hit, rfl⟩
      exact projectItem_noRaw it
  · intro idStr nm dm r hr
    unfold updateItem at hr
    split at hr
    · exact Response.noConfusion hr
    · split at hr
      · exact Response.noConfusion hr
      · split at hr
        · exact Response.noConfusion hr
        · injection hr with h2
          subst h2
          exact projectItem_noRaw _
  · intro i ip r hr
    unfold search at hr
    split at hr
    · exact Response.noConfusion hr
    · split at hr
      · exact Response.noConfusion hr
      · split at hr
        · exact Response.noConfusion hr
        · split at hr
          · exact Response.noConfusion hr
          · split at hr
            · exact Response.noConfusion hr
            · injection hr with h2
              subst h2
              exact projectSearch_noRaw _ _

/-- Witness for the amended C1: get of an item with a photo. -/
theorem C1_projected_responses_witness :
    noRawPhoto ⟨1, "A", "d", none, some (photoPath 1)⟩ :=
  (C1_projected_responses ⟨some [⟨1, "A", "d", some "f.png"⟩], []⟩).1 "1"
    ⟨1, "A", "d", none, some (photoPath 1)⟩ rfl

/-- C2 is false as stated: on `PUT /inventory/1/photo` over an item
whose previous photo is "old.png", the handler's effect trace unlinks
"old.png" — a file referenced by the pre-operation collection — BEFORE
writing the updated collection back. -/
theorem C2_counterexample :
    (updatePhoto ⟨some [⟨1, "A", "", some "old.png"⟩], ["old.png", "new.png"]⟩
        "1" (some "new.png")).2.2 =
      [.unlink "old.png", .writeDB [⟨1, "A", "", some "new.png"⟩]] ∧
    writesBeforeRefUnlinks [⟨1, "A", "", some "old.png"⟩] false
      (updatePhoto ⟨some [⟨1, "A", "", some "old.png"⟩], ["old.png", "new.png"]⟩
        "1" (some "new.png")).2.2 = false := ⟨rfl, rfl⟩

/-- C2 amended: register and update emit only the write, and delete
writes the reduced collection before its unlink, so their traces never
unlink a file referenced by the pre-operation collection before a
write; `updatePhoto` on an existing item with a previous photo instead
emits the unlink of that photo BEFORE the write of the new
collection. -/
theorem C2_write_before_unlink_amended (l : List Item) (fs : List String) :
    (∀ n d f, writesBeforeRefUnlinks l false
       (register ⟨some l, fs⟩ n d f).2.2 = true) ∧
    (∀ idStr nm dm, writesBeforeRefUnlinks l false
       (updateItem ⟨some l, fs⟩ idStr nm dm).2.2 = true) ∧
    (∀ idStr, writesBeforeRefUnlinks l false
       (deleteItem ⟨some l, fs⟩ idStr).2.2 = true) ∧
    (∀ idStr rid newFile old oldName,
       parseIntBase10 idStr = some rid →
       l.find? (fun i => i.id = rid) = some old →
       old.photo = some oldName →
       (updatePhoto ⟨some l, fs⟩ idStr (some newFile)).2.2 =
         [.unlink oldName,
          .writeDB (updateFirst l rid fun x => { x with photo := some newFile })]) := by
  refine ⟨?_, ?_, ?_, ?_⟩
  · intro n d f
    unfold register
    repeat' split
    all_goals rfl
  · intro idStr nm dm
    unfold updateItem
    repeat' split
    all_goals rfl
  · intro idStr
    unfold deleteItem
    repeat' split
    all_goals rfl
  · intro idStr rid newFile old oldName hpar hf hph
    have he := updatePhoto_eq l fs idStr rid newFile hpar
    rw [hf] at he
    have he2 : updatePhoto ⟨some l, fs⟩ idStr (some newFile) =
        match old.photo with
        | some oldName2 =>
            (.okText,
             ⟨some (updateFirst l rid fun x => { x with photo := some newFile }),
              unlinkFile fs oldName2⟩,
             [.unlink oldName2,
              .writeDB (updateFirst l rid fun x => { x with photo := some newFile })])
        | none =>
            (.okText,
             ⟨some (updateFirst l rid fun x => { x with photo := some newFile }), fs⟩,
             [.writeDB (updateFirst l rid fun x => { x with photo := some newFile })]) :=
      he
    rw [hph] at he2
    rw [he2]

/-- Witness for the amended C2: one item with an old photo; register
leaves a write-only trace, and the photo update unlinks first. -/
theorem C2_write_before_unlink_amended_witness :
    writesBeforeRefUnlinks [⟨1, "A", "", some "o.png"⟩] false
      (register ⟨some [⟨1, "A", "", some "o.png"⟩], ["o.png"]⟩
        (some "B") none none).2.2 = true ∧
    (updatePhoto ⟨some [⟨1, "A", "", some "o.png"⟩], ["o.png"]⟩
        "1" (some "n.png")).2.2 =
      [.unlink "o.png",
       .writeDB (updateFirst [⟨1, "A", "", some "o.png"⟩] 1
         fun x => { x with photo := some "n.png" })] :=
  ⟨(C2_write_before_unlink_amended [⟨1, "A", "", some "o.png"⟩] ["o.png"]).1
      (some "B") none none,
   (C2_write_before_unlink_amended [⟨1, "A", "", some "o.png"⟩] ["o.png"]).2.2.2
      "1" 1 "n.png" ⟨1, "A", "", some "o.png"⟩ "o.png" rfl rfl rfl⟩
